import Mathlib

/-!
Shallow embedding of the tool-relay loop of
`src/examples/python-chatbot/chatbot.py` (the `main` coroutine), together
with proofs of the behavioural properties stated about it.

Modelling conventions:
* Python/JSON values are modelled by the inductive `JValue` (JSON numbers
  are modelled as integers; floating point is not needed by any property).
* Python truthiness, `str()`, `dict.get`, `str.strip`, and the `in`
  substring test are modelled explicitly (`pyTruthy`, `pyStr`, `lookupKey`,
  `pyStrip`, `containsSub`).  `repr` of a string inside a container does
  not model CPython escaping of special characters; no property depends
  on it.
* The two external services are parameters: `llm` stands for
  `openai_client.chat.completions.create` (argument: transcript and
  whether the tool list was attached), `callTool` for
  `mcp_client.call_tool` (returning either a result value or a raised
  exception message), and `jsonParse` for `json.loads` (`none` models a
  raised `JSONDecodeError`).
* A turn of the chat loop (lines 60-249) is the function `runTurn`; its
  result records the final transcript, the log of completion requests
  (transcript sent, whether tools were attached), the assistant texts
  printed, and whether an exception escaped the turn.
-/

/-- JSON-ish Python values as returned by the tool provider. -/
inductive JValue : Type where
  | jnull : JValue
  | jbool : Bool → JValue
  | jnum : Int → JValue
  | jstr : String → JValue
  | jarr : List JValue → JValue
  | jobj : List (String × JValue) → JValue

/-- Python truthiness of a value (`if result.get("content"):` etc.). -/
def pyTruthy : JValue → Bool
  | .jnull => false
  | .jbool b => b
  | .jnum n => n != 0
  | .jstr s => s != ""
  | .jarr xs => !xs.isEmpty
  | .jobj fs => !fs.isEmpty

/-- Python `dict.get(k)` / `k in dict` on a JSON object (JSON-parsed
dictionaries have unique keys; first match). -/
def lookupKey (fields : List (String × JValue)) (k : String) : Option JValue :=
  List.lookup k fields

mutual

/-- Python `repr` of a value (string escaping inside containers is not
modelled; no property depends on it). -/
def pyRepr : JValue → String
  | .jnull => "None"
  | .jbool true => "True"
  | .jbool false => "False"
  | .jnum n => toString n
  | .jstr s => "\x27" ++ s ++ "\x27"
  | .jarr xs => "[" ++ pyReprList xs ++ "]"
  | .jobj fs => "\x7b" ++ pyReprFields fs ++ "\x7d"

/-- Comma-separated `repr`s of list elements. -/
def pyReprList : List JValue → String
  | [] => ""
  | [x] => pyRepr x
  | x :: xs => pyRepr x ++ ", " ++ pyReprList xs

/-- Comma-separated `repr`s of dict entries. -/
def pyReprFields : List (String × JValue) → String
  | [] => ""
  | [(k, v)] => "\x27" ++ k ++ "\x27: " ++ pyRepr v
  | (k, v) :: fs => "\x27" ++ k ++ "\x27: " ++ pyRepr v ++ ", " ++ pyReprFields fs

end

/-- Python `str()` of a value (line 175: `str(item.get("text", ""))`). -/
def pyStr : JValue → String
  | .jstr s => s
  | v => pyRepr v

/-- The whitespace characters stripped by Python `str.strip()` (ASCII
range; Unicode whitespace is not needed by any property). -/
def isPySpace (c : Char) : Bool :=
  c = ' ' || c = '\t' || c = '\n' || c = '\x0d' || c = '\x0b' || c = '\x0c'

/-- Python `str.strip()`. -/
def pyStrip (s : String) : String :=
  String.mk (((s.data.dropWhile isPySpace).reverse.dropWhile isPySpace).reverse)

/-- Auxiliary scan: does `needle` occur as a contiguous run in `hay`? -/
def containsSubAux (needle : List Char) : List Char → Bool
  | [] => needle.isEmpty
  | c :: t => needle.isPrefixOf (c :: t) || containsSubAux needle t

/-- Python substring test `needle in hay` on the underlying character
lists. -/
def containsSub (hay needle : String) : Bool :=
  containsSubAux needle.data hay.data

/-- Truthiness of the optional assistant text (`None` and `""` are
falsy). -/
def optTruthy : Option String → Bool
  | none => false
  | some s => s != ""

/- ## Sentinel and injected-message texts (verbatim from the source) -/

/-- The no-data sentinel tool-message text (line 193). -/
def noDataMsg : String :=
  "[NO_DATA] The tool returned no information. This means the requested data was not found in the Translation Helps resources."

/-- The error-sentinel tool-message text for a dispatch failure with
rendered exception `e` (line 207). -/
def mkErrorMsg (e : String) : String :=
  "[ERROR] The tool call failed: " ++ e ++ ". This means the requested information could not be retrieved from the Translation Helps resources."

/-- The corrective system message injected when a Bible-related question
got no tool call (line 112). -/
def toolReminderMsg : String :=
  "The user asked about Bible or translation content, but you didn\x27t use any tools. You MUST use the available tools to fetch information from Translation Helps resources before answering. Please call the appropriate tool(s) now."

/-- The corrective system message injected when no tool result carried
data (line 235). -/
def allFailedMsg : String :=
  "IMPORTANT: All tool calls returned [NO_DATA] or [ERROR]. You MUST inform the user that you could not find the requested information in the Translation Helps resources. Do NOT make up or guess information."

/- ## Result-text extraction (lines 162-198, inside the per-call `try`) -/

/-- Python type name of a value, as it appears in an `AttributeError`
message. -/
def pyTypeName : JValue → String
  | .jnull => "NoneType"
  | .jbool _ => "bool"
  | .jnum _ => "int"
  | .jstr _ => "str"
  | .jarr _ => "list"
  | .jobj _ => "dict"

/-- Rendering, as `str(e)`, of the `AttributeError` raised by calling
method `m` on non-object value `v`. -/
def attrErrorStr (v : JValue) (m : String) : String :=
  "\x27" ++ pyTypeName v ++ "\x27 object has no attribute \x27" ++ m ++ "\x27"

/-- Contribution of one content item to `tool_result_text`
(lines 171-181).  A dict with a `"text"` key contributes `str` of its
value; the `elif` branch for type-tagged items (line 177) also requires
`"text" in item` and is therefore unreachable; a bare string contributes
itself; anything else contributes nothing. -/
def itemText (item : JValue) : String :=
  match item with
  | .jobj fields =>
    match lookupKey fields "text" with
    | some v => pyStr v
    | none =>
      -- elif item.get("type") == "text" and "text" in item: dead, since
      -- "text" not in item here
      ""
  | .jstr s => s
  | _ => ""

/-- Text accumulated from the `"content"` entry of the result
(lines 165-181): skipped when the entry is absent or falsy; a non-list
entry is wrapped in a singleton list. -/
def contentText (fields : List (String × JValue)) : String :=
  match lookupKey fields "content" with
  | some c =>
    if pyTruthy c then
      let contentItems := match c with | .jarr xs => xs | v => [v]
      contentItems.foldl (fun acc item => acc ++ itemText item) ""
    else ""
  | none => ""

/-- The value of `tool_result_text` after lines 164-185, or the rendered
exception when the extraction itself raises: `result.get` on a non-dict
raises `AttributeError`, and a truthy non-string top-level `"text"` value
makes the later `tool_result_text.strip()` (line 188) raise
`AttributeError`. -/
def rawExtract (result : JValue) : Except String String :=
  match result with
  | .jobj fields =>
    let fromContent := contentText fields
    if fromContent = "" then
      match lookupKey fields "text" with
      | some v =>
        if pyTruthy v then
          match v with
          | .jstr s => .ok s
          | _ => .error (attrErrorStr v "strip")
        else .ok ""
      | none => .ok ""
    else .ok fromContent
  | v => .error (attrErrorStr v "get")

/-- Empty-result substitution (lines 188-193): an empty or
whitespace-only `tool_result_text` becomes the no-data sentinel. -/
def emptyCheck (s : String) : String :=
  if s = "" || pyStrip s = "" then noDataMsg else s

/-- The tool-message text produced for a successfully returned result
value, or the rendered exception when extraction raises. -/
def normalizeResult (result : JValue) : Except String String :=
  (rawExtract result).map emptyCheck

/- ## Messages, tool calls, and the per-turn relay (lines 60-255) -/

/-- A tool call as relayed from the completion response (lines 85-94):
identifier, function name, and the JSON-encoded argument payload. -/
structure ToolCall where
  id : String
  name : String
  arguments : String
deriving DecidableEq, Repr

/-- The assistant message of a completion response: optional text and
the (possibly empty) list of tool calls. -/
structure AssistantMsg where
  content : Option String
  toolCalls : List ToolCall
deriving DecidableEq, Repr

/-- A transcript entry.  The assistant variant carries its tool calls
(`[]` models an absent `tool_calls` key, lines 82-98); the tool variant
carries the correlating `tool_call_id`, the tool name and the text
payload (lines 200-205). -/
inductive Message : Type where
  | system : String → Message
  | user : String → Message
  | assistant : Option String → List ToolCall → Message
  | tool : (toolCallId : String) → (name : String) → (content : String) → Message
deriving DecidableEq, Repr

/-- The observable outcome of one turn of the chat loop: the transcript
after the turn, the completion requests issued (transcript sent, whether
the tool list was attached), the assistant texts printed, and whether an
exception escaped the turn body. -/
structure TurnResult where
  transcript : List Message
  requests : List (List Message × Bool)
  printed : List (Option String)
  crashed : Bool
deriving DecidableEq, Repr

/-- The fixed keyword vocabulary of the domain-relevance heuristic
(line 105). -/
def bibleKeywords : List String :=
  ["bible", "scripture", "verse", "chapter", "translation", "word", "note",
   "john", "matthew", "mark", "luke", "acts", "romans", "corinthians",
   "ephesians", "philippians", "colossians", "thessalonians", "timothy",
   "titus", "philemon", "hebrews", "james", "peter", "jude", "revelation",
   "genesis", "exodus", "leviticus", "numbers", "deuteronomy", "joshua",
   "judges", "ruth", "samuel", "kings", "chronicles", "ezra", "nehemiah",
   "esther", "job", "psalm", "proverbs", "ecclesiastes", "song", "isaiah",
   "jeremiah", "lamentations", "ezekiel", "daniel", "hosea", "joel", "amos",
   "obadiah", "jonah", "micah", "nahum", "habakkuk", "zephaniah", "haggai",
   "zechariah", "malachi"]

/-- ASCII lowercase of one character (Python `str.lower()` restricted to
ASCII; no property involves non-ASCII input). -/
def asciiLower (c : Char) : Char :=
  if 'A' ≤ c ∧ c ≤ 'Z' then Char.ofNat (c.toNat + 32) else c

/-- Python `str.lower()` (`user_input.lower()`, line 104). -/
def pyLower (s : String) : String :=
  String.mk (s.data.map asciiLower)

/-- The domain-relevance heuristic (line 107): some keyword occurs as a
substring of the lowercased input. -/
def isBibleRelated (input : String) : Bool :=
  bibleKeywords.any (fun k => containsSub (pyLower input) k)

/-- Python `messages[-1] = m` (line 124). -/
def setLast (l : List Message) (m : Message) : List Message :=
  l.dropLast ++ [m]

/-- Python `messages[-n:]` for `n > 0` (line 221). -/
def lastN (l : List Message) (n : Nat) : List Message :=
  l.drop (l.length - n)

/-- The has-data test applied to one recent message (lines 222-228): a
tool message whose content is truthy, strips to something truthy, and
contains neither `"[NO_DATA]"` nor `"[ERROR]"` as a substring. -/
def msgHasData (m : Message) : Bool :=
  match m with
  | .tool _ _ content =>
    content != "" && pyStrip content != "" &&
      !containsSub content "[NO_DATA]" && !containsSub content "[ERROR]"
  | _ => false

/-- The content of the tool message appended for one tool call whose
arguments parsed (lines 158-213): a raised dispatch or extraction
exception is caught and converted to the error sentinel. -/
def dispatchContent (callTool : String → String → Except String JValue)
    (tc : ToolCall) : String :=
  match callTool tc.name tc.arguments with
  | .error e => mkErrorMsg e
  | .ok v =>
    match normalizeResult v with
    | .error e => mkErrorMsg e
    | .ok text => text

/-- The tool-execution loop (lines 152-214): for each call, `json.loads`
the arguments (line 154, outside the `try`: a parse failure aborts the
loop and escapes), then dispatch and append one tool message.  Returns
the appended tool messages and whether an exception escaped. -/
def execToolCalls (callTool : String → String → Except String JValue)
    (jsonParse : String → Option JValue) :
    List ToolCall → List Message × Bool
  | [] => ([], false)
  | tc :: rest =>
    match jsonParse tc.arguments with
    | none => ([], true)
    | some _ =>
      let msg := Message.tool tc.id tc.name (dispatchContent callTool tc)
      let (restMsgs, crashed) := execToolCalls callTool jsonParse rest
      (msg :: restMsgs, crashed)

/-- Output of the pre-tool phase of a turn (lines 70-147): transcript so
far, the assistant message whose tool calls (if any) will be executed,
the completion requests issued so far, and the texts printed so far. -/
structure Phase1Out where
  msgs : List Message
  aCur : AssistantMsg
  reqs : List (List Message × Bool)
  printed : List (Option String)
deriving Repr

/-- Lines 70-147 of a turn: append the user message, request a
completion with tools, append the assistant entry; if it has truthy text
and no tool calls and the input is Bible-related, inject the corrective
system message, re-request once, and overwrite `messages[-1]` (the
just-injected system message, line 124) with the new assistant entry;
print the assistant text when the turn will run no tools. -/
def phase1 (llm : List Message → Bool → AssistantMsg)
    (transcript : List Message) (userInput : String) : Phase1Out :=
  let m1 := transcript ++ [Message.user userInput]
  let a1 := llm m1 true
  let m2 := m1 ++ [Message.assistant a1.content a1.toolCalls]
  if optTruthy a1.content && a1.toolCalls.isEmpty then
    if isBibleRelated userInput then
      let m3 := m2 ++ [Message.system toolReminderMsg]
      let a2 := llm m3 true
      let m4 := setLast m3 (Message.assistant a2.content a2.toolCalls)
      if a2.toolCalls.isEmpty then
        ⟨m4, a2, [(m1, true), (m3, true)], [a2.content]⟩
      else
        ⟨m4, a2, [(m1, true), (m3, true)], []⟩
    else
      ⟨m2, a1, [(m1, true)], [a1.content]⟩
  else
    ⟨m2, a1, [(m1, true)], []⟩

/-- Lines 150-249 of a turn: execute the current assistant's tool calls
(if any), run the has-data check over the just-appended tool messages,
inject the all-failed corrective system message when none carried data,
request the final completion without tools, append and print it. -/
def runToolPhase (llm : List Message → Bool → AssistantMsg)
    (callTool : String → String → Except String JValue)
    (jsonParse : String → Option JValue)
    (p : Phase1Out) : TurnResult :=
  if p.aCur.toolCalls.isEmpty then
    ⟨p.msgs, p.reqs, p.printed, false⟩
  else
    let (toolMsgs, crashed) := execToolCalls callTool jsonParse p.aCur.toolCalls
    let m5 := p.msgs ++ toolMsgs
    if crashed then
      ⟨m5, p.reqs, p.printed, true⟩
    else
      let hasData := (lastN m5 p.aCur.toolCalls.length).any msgHasData
      let m6 := if !hasData then m5 ++ [Message.system allFailedMsg] else m5
      let aF := llm m6 false
      ⟨m6 ++ [Message.assistant aF.content []], p.reqs ++ [(m6, false)],
        p.printed ++ [aF.content], false⟩

/-- One full turn of the chat loop (lines 60-249). -/
def runTurn (llm : List Message → Bool → AssistantMsg)
    (callTool : String → String → Except String JValue)
    (jsonParse : String → Option JValue)
    (transcript : List Message) (userInput : String) : TurnResult :=
  runToolPhase llm callTool jsonParse (phase1 llm transcript userInput)

/-- The tool calls a turn executes: those of the retried completion when
the corrective retry fired, otherwise those of the first completion. -/
def issuedToolCalls (llm : List Message → Bool → AssistantMsg)
    (transcript : List Message) (userInput : String) : List ToolCall :=
  (phase1 llm transcript userInput).aCur.toolCalls

/-- The identifier of a tool message, `none` for the other variants. -/
def toolIdOf : Message → Option String
  | .tool id _ _ => some id
  | _ => none

/-- The messages a turn appended beyond the starting transcript. -/
def newMsgs (r : TurnResult) (base : List Message) : List Message :=
  r.transcript.drop base.length

/-- The session-level wrap-up (lines 251-255): the `except` clause
reports an exception that escaped the loop body, the `finally` clause
always closes the tool-provider connection. -/
structure SessionEnd where
  reportedError : Bool
  connectionClosed : Bool
deriving DecidableEq, Repr

/-- Session wrap-up observed after a turn: an escaped exception is
reported (line 252); the connection is closed either way (line 254). -/
def sessionWindup (r : TurnResult) : SessionEnd :=
  ⟨r.crashed, true⟩

/-- Whether the chat loop is still running after a turn: an escaped
exception leaves the `while` loop for the session-level handler. -/
def sessionContinues (r : TurnResult) : Bool :=
  !r.crashed

/- ## Helper lemmas -/

/-- When every argument payload parses, the tool loop appends exactly one
tool message per call, in order, with the call's own identifier, and no
exception escapes. -/
theorem execToolCalls_all_parsed
    (ct : String → String → Except String JValue)
    (jp : String → Option JValue)
    (calls : List ToolCall)
    (h : ∀ tc ∈ calls, (jp tc.arguments).isSome) :
    execToolCalls ct jp calls =
      (calls.map (fun tc => Message.tool tc.id tc.name (dispatchContent ct tc)),
        false) := by
  induction calls with
  | nil => rfl
  | cons tc rest ih =>
    obtain ⟨v, hv⟩ := Option.isSome_iff_exists.mp (h tc (by simp))
    simp only [execToolCalls, hv, ih (fun x hx => h x (by simp [hx])),
      List.map_cons]

/-- Python `messages[-n:]` of an append, where `n` is the length of the
appended part, is the appended part. -/
theorem lastN_append (a b : List Message) : lastN (a ++ b) b.length = b := by
  simp only [lastN, List.length_append, Nat.add_sub_cancel, List.drop_left]

/-- A message that is not a tool message never passes the has-data
test. -/
theorem msgHasData_of_not_tool (m : Message) (h : toolIdOf m = none) :
    msgHasData m = false := by
  cases m <;> simp_all [toolIdOf, msgHasData]

/-- Shape of the pre-tool phase: the starting transcript, then the user
message, then some non-tool entries, then the assistant entry whose tool
calls the turn will execute. -/
theorem phase1_shape (llm : List Message → Bool → AssistantMsg)
    (t : List Message) (input : String) :
    ∃ δ : List Message,
      (phase1 llm t input).msgs =
        t ++ [Message.user input] ++ δ ++
          [Message.assistant (phase1 llm t input).aCur.content
            (phase1 llm t input).aCur.toolCalls] ∧
      δ.filterMap toolIdOf = [] := by
  simp only [phase1]
  by_cases h1 : (optTruthy (llm (t ++ [Message.user input]) true).content &&
      (llm (t ++ [Message.user input]) true).toolCalls.isEmpty) = true
  · simp only [h1, if_true]
    by_cases h2 : isBibleRelated input = true
    · simp only [h2, if_true]
      refine ⟨[Message.assistant (llm (t ++ [Message.user input]) true).content
        (llm (t ++ [Message.user input]) true).toolCalls], ?_, by simp [toolIdOf]⟩
      split <;> simp [setLast]
    · simp only [h2, if_false, Bool.false_eq_true]
      exact ⟨[], by simp, by simp⟩
  · simp only [h1, if_false, Bool.false_eq_true]
    exact ⟨[], by simp, by simp⟩

/-- The tool phase, when the current assistant message has tool calls and
every argument payload parses: one tool message per call is appended, the
all-failed corrective system message is appended exactly when no tool
message passes the has-data test, and the final completion (without
tools) is requested, appended and printed. -/
theorem runToolPhase_spec (llm : List Message → Bool → AssistantMsg)
    (ct : String → String → Except String JValue)
    (jp : String → Option JValue)
    (p : Phase1Out)
    (hne : p.aCur.toolCalls ≠ [])
    (hparse : ∀ tc ∈ p.aCur.toolCalls, (jp tc.arguments).isSome) :
    runToolPhase llm ct jp p =
      (let toolMsgs := p.aCur.toolCalls.map
         (fun tc => Message.tool tc.id tc.name (dispatchContent ct tc))
       let m6 := if toolMsgs.any msgHasData then p.msgs ++ toolMsgs
         else p.msgs ++ toolMsgs ++ [Message.system allFailedMsg]
       ⟨m6 ++ [Message.assistant (llm m6 false).content []],
        p.reqs ++ [(m6, false)], p.printed ++ [(llm m6 false).content],
        false⟩) := by
  have hlen : (p.aCur.toolCalls.map
      (fun tc => Message.tool tc.id tc.name (dispatchContent ct tc))).length
      = p.aCur.toolCalls.length := List.length_map _ _
  unfold runToolPhase
  rw [if_neg (by simpa using hne)]
  rw [execToolCalls_all_parsed ct jp _ hparse]
  simp only
  rw [← hlen, lastN_append]
  by_cases hd : (p.aCur.toolCalls.map
      (fun tc => Message.tool tc.id tc.name (dispatchContent ct tc))).any msgHasData
  · simp [hd, List.append_assoc]
  · simp [hd, List.append_assoc]

/-- The identifiers read back off the appended tool messages are exactly
the identifiers of the calls, in order. -/
theorem filterMap_toolIdOf_map (ct : String → String → Except String JValue)
    (calls : List ToolCall) :
    (calls.map (fun tc => Message.tool tc.id tc.name (dispatchContent ct tc))).filterMap
        toolIdOf = calls.map ToolCall.id := by
  induction calls with
  | nil => rfl
  | cons tc rest ih => simp [toolIdOf, ih]

/-- Composed form of `filterMap_toolIdOf_map`, as produced by
`List.filterMap_map`. -/
theorem filterMap_toolIdOf_comp (ct : String → String → Except String JValue)
    (calls : List ToolCall) :
    List.filterMap
        (toolIdOf ∘ fun tc => Message.tool tc.id tc.name (dispatchContent ct tc))
        calls = calls.map ToolCall.id := by
  induction calls with
  | nil => rfl
  | cons tc rest ih => simp_all [List.filterMap_cons, toolIdOf, Function.comp]

/-- When `r.transcript` extends the base transcript, `newMsgs` is the
extension. -/
theorem newMsgs_eq (r : TurnResult) (t rest : List Message)
    (h : r.transcript = t ++ rest) : newMsgs r t = rest := by
  simp [newMsgs, h, List.drop_left]

/-- Explicit form of a full turn that executes tool calls whose argument
payloads all parse. -/
theorem runTurn_spec (llm : List Message → Bool → AssistantMsg)
    (ct : String → String → Except String JValue)
    (jp : String → Option JValue)
    (t : List Message) (input : String)
    (hcalls : issuedToolCalls llm t input ≠ [])
    (hparse : ∀ tc ∈ issuedToolCalls llm t input, (jp tc.arguments).isSome) :
    ∃ δ : List Message,
      δ.filterMap toolIdOf = [] ∧
      runTurn llm ct jp t input =
        (let calls := issuedToolCalls llm t input
         let toolMsgs := calls.map
           (fun tc => Message.tool tc.id tc.name (dispatchContent ct tc))
         let pre := t ++ [Message.user input] ++ δ ++
           [Message.assistant (phase1 llm t input).aCur.content calls]
         let m6 := if toolMsgs.any msgHasData then pre ++ toolMsgs
           else pre ++ toolMsgs ++ [Message.system allFailedMsg]
         ⟨m6 ++ [Message.assistant (llm m6 false).content []],
          (phase1 llm t input).reqs ++ [(m6, false)],
          (phase1 llm t input).printed ++ [(llm m6 false).content], false⟩) := by
  obtain ⟨δ, hδ, hδ0⟩ := phase1_shape llm t input
  refine ⟨δ, hδ0, ?_⟩
  unfold runTurn
  rw [runToolPhase_spec llm ct jp _ hcalls hparse]
  simp only [issuedToolCalls] at *
  rw [hδ]

/- ## Claim C1 -/

/-- The turn used by the C1 counterexample: the first completion issues
one tool call whose argument payload does not parse as JSON. -/
def c1LLM : List Message → Bool → AssistantMsg := fun ms _ =>
  if ms.length ≤ 1 then ⟨none, [⟨"call_1", "fetch_scripture", "not json"⟩]⟩
  else ⟨some "done", []⟩

/-- A tool provider that always returns a text result (never reached in
the C1 counterexample). -/
def ctOk : String → String → Except String JValue := fun _ _ =>
  .ok (.jobj [("content", .jarr [.jobj [("text", .jstr "For God so loved the world...")]])])

/-- A `json.loads` that fails on every payload. -/
def jpFail : String → Option JValue := fun _ => none

/-- C1 counterexample: in the turn driven by `c1LLM`, the assistant's
completion carried the tool call `call_1`, yet no tool message at all is
appended (`newMsgs` carries no tool identifier) and no further completion
request is issued — `call_1` does not receive exactly one corresponding
tool message, refuting the claim as stated. -/
theorem c1_counterexample :
    issuedToolCalls c1LLM [] "q" = [⟨"call_1", "fetch_scripture", "not json"⟩] ∧
    (newMsgs (runTurn c1LLM ctOk jpFail [] "q") []).filterMap toolIdOf = [] ∧
    (runTurn c1LLM ctOk jpFail [] "q").requests =
      [([Message.user "q"], true)] ∧
    (runTurn c1LLM ctOk jpFail [] "q").crashed = true := by
  refine ⟨rfl, rfl, rfl, rfl⟩

/-- C1 (amended): provided every issued tool call's argument payload
parses as JSON, each ToolCall receives exactly one corresponding tool
Message: the list of `tool_call_id` values on the tool messages appended
during the turn equals the list of identifiers the assistant issued, in
order (same elements, no omissions, no duplicates beyond those issued,
each identifier round-tripping unchanged), and when tool calls were
issued all those tool messages are already present in the transcript of
the next (final) completion request. -/
theorem c1_tool_messages_bijection
    (llm : List Message → Bool → AssistantMsg)
    (ct : String → String → Except String JValue)
    (jp : String → Option JValue)
    (t : List Message) (input : String)
    (hparse : ∀ tc ∈ issuedToolCalls llm t input, (jp tc.arguments).isSome) :
    (newMsgs (runTurn llm ct jp t input) t).filterMap toolIdOf
        = (issuedToolCalls llm t input).map ToolCall.id ∧
    (issuedToolCalls llm t input ≠ [] →
      ∃ m6 : List Message,
        (runTurn llm ct jp t input).requests.getLast? = some (m6, false) ∧
        (m6.drop t.length).filterMap toolIdOf
          = (issuedToolCalls llm t input).map ToolCall.id) := by
  by_cases hc : issuedToolCalls llm t input = []
  · obtain ⟨δ, hδ, hδ0⟩ := phase1_shape llm t input
    constructor
    · have hrun : runTurn llm ct jp t input =
          ⟨(phase1 llm t input).msgs, (phase1 llm t input).reqs,
            (phase1 llm t input).printed, false⟩ := by
        unfold runTurn runToolPhase
        rw [if_pos (by simpa [issuedToolCalls] using hc)]
      rw [newMsgs_eq _ t
        ([Message.user input] ++ δ ++
          [Message.assistant (phase1 llm t input).aCur.content
            (phase1 llm t input).aCur.toolCalls])
        (by rw [hrun]; simpa [List.append_assoc] using hδ)]
      simp [hc, List.filterMap_append, hδ0, toolIdOf]
    · intro h
      exact absurd hc h
  · obtain ⟨δ, hδ0, hrun⟩ := runTurn_spec llm ct jp t input hc hparse
    simp only at hrun
    rw [hrun]
    by_cases hd : ((issuedToolCalls llm t input).map
        (fun tc => Message.tool tc.id tc.name (dispatchContent ct tc))).any
          msgHasData = true
    · rw [if_pos hd]
      refine ⟨?_, fun _ => ⟨t ++ [Message.user input] ++ δ ++
        [Message.assistant (phase1 llm t input).aCur.content
          (issuedToolCalls llm t input)] ++
        (issuedToolCalls llm t input).map
          (fun tc => Message.tool tc.id tc.name (dispatchContent ct tc)),
        ?_, ?_⟩⟩
      · simp [newMsgs, List.append_assoc, List.drop_left,
          List.filterMap_append, toolIdOf, hδ0, filterMap_toolIdOf_map, filterMap_toolIdOf_comp]
      · simp
      · simp [List.append_assoc, List.drop_left, List.filterMap_append,
          toolIdOf, hδ0, filterMap_toolIdOf_map, filterMap_toolIdOf_comp]
    · rw [if_neg hd]
      refine ⟨?_, fun _ => ⟨t ++ [Message.user input] ++ δ ++
        [Message.assistant (phase1 llm t input).aCur.content
          (issuedToolCalls llm t input)] ++
        (issuedToolCalls llm t input).map
          (fun tc => Message.tool tc.id tc.name (dispatchContent ct tc)) ++
        [Message.system allFailedMsg],
        ?_, ?_⟩⟩
      · simp [newMsgs, List.append_assoc, List.drop_left,
          List.filterMap_append, toolIdOf, hδ0, filterMap_toolIdOf_map, filterMap_toolIdOf_comp]
      · simp
      · simp [List.append_assoc, List.drop_left, List.filterMap_append,
          toolIdOf, hδ0, filterMap_toolIdOf_map, filterMap_toolIdOf_comp]

/-- An assistant that issues one tool call with parseable arguments, then
answers. -/
def w1LLM : List Message → Bool → AssistantMsg := fun ms _ =>
  if ms.length ≤ 1 then ⟨none, [⟨"call_9", "fetch_translation_notes", "args"⟩]⟩
  else ⟨some "summary", []⟩

/-- A `json.loads` that succeeds on every payload. -/
def jpOk : String → Option JValue := fun _ => some (.jobj [])

/-- Witness for the amended C1 theorem at a concrete turn with one
parseable tool call. -/
theorem c1_tool_messages_bijection_witness :
    (∀ tc ∈ issuedToolCalls w1LLM [] "Luke 2", (jpOk tc.arguments).isSome) ∧
    ((newMsgs (runTurn w1LLM ctOk jpOk [] "Luke 2") []).filterMap toolIdOf
        = (issuedToolCalls w1LLM [] "Luke 2").map ToolCall.id ∧
      (issuedToolCalls w1LLM [] "Luke 2" ≠ [] →
        ∃ m6 : List Message,
          (runTurn w1LLM ctOk jpOk [] "Luke 2").requests.getLast? = some (m6, false) ∧
          (m6.drop ([] : List Message).length).filterMap toolIdOf
            = (issuedToolCalls w1LLM [] "Luke 2").map ToolCall.id)) :=
  ⟨by decide, c1_tool_messages_bijection w1LLM ctOk jpOk [] "Luke 2" (by decide)⟩

/- ## Claim C2 -/

/-- Every error-sentinel text contains `"[ERROR]"` as a substring. -/
theorem containsSub_mkErrorMsg (e : String) :
    containsSub (mkErrorMsg e) "[ERROR]" = true := rfl

/-- Every error-sentinel text differs from any string that does not
contain `"[ERROR]"` as a substring. -/
theorem mkErrorMsg_ne_of_not_contains (s : String)
    (h : containsSub s "[ERROR]" = false) (e : String) : s ≠ mkErrorMsg e := by
  intro hs
  rw [hs, containsSub_mkErrorMsg] at h
  exact absurd h (by decide)

/-- A genuine tool-result text that happens to mention the no-data marker
inside real data. -/
def c2Genuine : String :=
  "Note 4 says the marker [NO_DATA] appears when a source field is blank"

/-- A tool provider returning the genuine marker-mentioning text. -/
def c2CT : String → String → Except String JValue := fun _ _ =>
  .ok (.jobj [("content", .jarr [.jobj [("text", .jstr c2Genuine)]])])

/-- An assistant that issues one tool call (id `call_2`), then answers. -/
def tcLLM : List Message → Bool → AssistantMsg := fun ms _ =>
  if ms.length ≤ 1 then ⟨none, [⟨"call_2", "fetch_translation_notes", "args"⟩]⟩
  else ⟨some "done", []⟩

/-- C2 counterexample: the single tool message of this turn carries the
genuine text `c2Genuine`, which is not empty, not whitespace-only, not
the no-data sentinel and (containing no `"[ERROR]"` substring, see
`mkErrorMsg_ne_of_not_contains`) not an error sentinel — yet the
corrective system message is appended before the final completion
request, because the code tests for the substring `"[NO_DATA]"` rather
than for sentinel equality.  This refutes the claimed if-and-only-if. -/
theorem c2_counterexample :
    (runTurn tcLLM c2CT jpOk [] "q2").transcript =
      [Message.user "q2",
       Message.assistant none [⟨"call_2", "fetch_translation_notes", "args"⟩],
       Message.tool "call_2" "fetch_translation_notes" c2Genuine,
       Message.system allFailedMsg,
       Message.assistant (some "done") []] ∧
    (runTurn tcLLM c2CT jpOk [] "q2").requests.getLast? =
      some ([Message.user "q2",
        Message.assistant none [⟨"call_2", "fetch_translation_notes", "args"⟩],
        Message.tool "call_2" "fetch_translation_notes" c2Genuine,
        Message.system allFailedMsg], false) ∧
    c2Genuine ≠ "" ∧ pyStrip c2Genuine ≠ "" ∧ c2Genuine ≠ noDataMsg ∧
    containsSub c2Genuine "[ERROR]" = false := by
  refine ⟨rfl, rfl, by decide, by decide, by decide, by decide⟩

/-- Every member of a list whose `toolIdOf`-filterMap is empty fails the
has-data test. -/
theorem msgHasData_eq_false_of_filterMap_nil (δ : List Message)
    (hδ0 : δ.filterMap toolIdOf = []) : ∀ m ∈ δ, msgHasData m = false := by
  intro m hm
  apply msgHasData_of_not_tool
  cases hmm : toolIdOf m with
  | none => rfl
  | some x =>
    exact absurd (hδ0 ▸ List.mem_filterMap.mpr ⟨m, hm, hmm⟩)
      (List.not_mem_nil x)

/-- C2 (amended): in a turn that executes tool calls (all argument
payloads parsing), the corrective all-failed system message is the last
entry of the final completion request's transcript if and only if every
message the turn appended fails the code's has-data test — that is, every
just-produced tool message is empty, whitespace-only, or contains
`"[NO_DATA]"` or `"[ERROR]"` as a substring.  If at least one tool
message passes the test (partial success), the corrective message is not
injected. -/
theorem c2_corrective_iff_no_data
    (llm : List Message → Bool → AssistantMsg)
    (ct : String → String → Except String JValue)
    (jp : String → Option JValue)
    (t : List Message) (input : String)
    (hparse : ∀ tc ∈ issuedToolCalls llm t input, (jp tc.arguments).isSome)
    (hcalls : issuedToolCalls llm t input ≠ []) :
    ∃ m6 : List Message,
      (runTurn llm ct jp t input).requests.getLast? = some (m6, false) ∧
      (m6.getLast? = some (Message.system allFailedMsg) ↔
        ∀ m ∈ newMsgs (runTurn llm ct jp t input) t, msgHasData m = false) := by
  obtain ⟨δ, hδ0, hrun⟩ := runTurn_spec llm ct jp t input hcalls hparse
  simp only at hrun
  have hδdata := msgHasData_eq_false_of_filterMap_nil δ hδ0
  have htmne : (issuedToolCalls llm t input).map
      (fun tc => Message.tool tc.id tc.name (dispatchContent ct tc)) ≠ [] := by
    simpa using hcalls
  rw [hrun]
  by_cases hd : ((issuedToolCalls llm t input).map
      (fun tc => Message.tool tc.id tc.name (dispatchContent ct tc))).any
        msgHasData = true
  · rw [if_pos hd]
    refine ⟨_, List.getLast?_concat _, ?_⟩
    obtain ⟨m, hm, hdat⟩ := List.any_eq_true.mp hd
    constructor
    · intro hlast
      rw [List.getLast?_append_of_ne_nil _ htmne, List.getLast?_map,
        List.getLast?_eq_getLast _ hcalls] at hlast
      simp at hlast
    · intro hall
      exfalso
      have hmem : m ∈ newMsgs
          ⟨t ++ [Message.user input] ++ δ ++
            [Message.assistant (phase1 llm t input).aCur.content
              (issuedToolCalls llm t input)] ++
            (issuedToolCalls llm t input).map
              (fun tc => Message.tool tc.id tc.name (dispatchContent ct tc)) ++
            [Message.assistant (llm (t ++ [Message.user input] ++ δ ++
              [Message.assistant (phase1 llm t input).aCur.content
                (issuedToolCalls llm t input)] ++
              (issuedToolCalls llm t input).map
                (fun tc => Message.tool tc.id tc.name (dispatchContent ct tc)))
              false).content []],
           (phase1 llm t input).reqs ++ [(t ++ [Message.user input] ++ δ ++
             [Message.assistant (phase1 llm t input).aCur.content
               (issuedToolCalls llm t input)] ++
             (issuedToolCalls llm t input).map
               (fun tc => Message.tool tc.id tc.name (dispatchContent ct tc)),
             false)],
           (phase1 llm t input).printed ++ [(llm (t ++ [Message.user input] ++ δ ++
             [Message.assistant (phase1 llm t input).aCur.content
               (issuedToolCalls llm t input)] ++
             (issuedToolCalls llm t input).map
               (fun tc => Message.tool tc.id tc.name (dispatchContent ct tc)))
             false).content],
           false⟩ t := by
        simp [newMsgs, List.append_assoc, List.drop_left, List.mem_append,
          List.mem_cons, hm]
      have := hall m hmem
      rw [this] at hdat
      exact absurd hdat (by decide)
  · rw [if_neg hd]
    refine ⟨_, List.getLast?_concat _, ?_⟩
    have hd' : ∀ m ∈ (issuedToolCalls llm t input).map
        (fun tc => Message.tool tc.id tc.name (dispatchContent ct tc)),
        msgHasData m = false := by
      simpa [List.any_eq_true] using hd
    refine ⟨fun _ => ?_, fun _ => List.getLast?_concat _⟩
    intro m hm
    simp [newMsgs, List.append_assoc, List.drop_left, List.mem_cons,
      List.mem_append] at hm
    rcases hm with h | h | h | h | h | h <;>
      first
        | (cases h; rfl)
        | exact hδdata m h
        | exact hd' m (List.mem_map.mpr h)

/-- A tool provider whose dispatch always raises. -/
def ctErr : String → String → Except String JValue := fun _ _ =>
  .error "HTTP 500"

/-- Witness for the amended C2 theorem at a concrete turn whose single
tool call raises, so its tool message is the error sentinel and the
corrective message is injected. -/
theorem c2_corrective_iff_no_data_witness :
    (∀ tc ∈ issuedToolCalls tcLLM [] "q2w", (jpOk tc.arguments).isSome) ∧
    issuedToolCalls tcLLM [] "q2w" ≠ [] ∧
    (∃ m6 : List Message,
      (runTurn tcLLM ctErr jpOk [] "q2w").requests.getLast? = some (m6, false) ∧
      (m6.getLast? = some (Message.system allFailedMsg) ↔
        ∀ m ∈ newMsgs (runTurn tcLLM ctErr jpOk [] "q2w") [],
          msgHasData m = false)) :=
  ⟨by decide, by decide,
    c2_corrective_iff_no_data tcLLM ctErr jpOk [] "q2w" (by decide) (by decide)⟩

/- ## Claim C3 -/

/-- An assistant issuing two tool calls, the second with an unparseable
argument payload. -/
def c3LLM : List Message → Bool → AssistantMsg := fun ms _ =>
  if ms.length ≤ 1 then
    ⟨none, [⟨"c3a", "fetch_scripture", "good"⟩, ⟨"c3b", "fetch_scripture", "bad"⟩]⟩
  else ⟨some "end", []⟩

/-- A `json.loads` that fails exactly on the payload `"bad"`. -/
def jpSel : String → Option JValue := fun s =>
  if s = "bad" then none else some (.jobj [])

/-- C3 counterexample: the second tool call's argument payload fails to
parse; the failure is not caught by the per-call handler — the turn
crashes, no error-sentinel tool message is appended for that call, and
no further completion request is issued — refuting the claim that any
failure of the per-call processing (including argument parsing) is
caught locally and the session continues. -/
theorem c3_counterexample :
    (runTurn c3LLM ctOk jpSel [] "q3").crashed = true ∧
    (runTurn c3LLM ctOk jpSel [] "q3").transcript =
      [Message.user "q3",
       Message.assistant none
         [⟨"c3a", "fetch_scripture", "good"⟩, ⟨"c3b", "fetch_scripture", "bad"⟩],
       Message.tool "c3a" "fetch_scripture" "For God so loved the world..."] ∧
    (runTurn c3LLM ctOk jpSel [] "q3").requests = [([Message.user "q3"], true)] :=
  ⟨rfl, rfl, rfl⟩

/-- A tool message produced by the loop for one of the issued calls is
among the messages the turn appended. -/
theorem toolMsg_mem_newMsgs
    (llm : List Message → Bool → AssistantMsg)
    (ct : String → String → Except String JValue)
    (jp : String → Option JValue)
    (t : List Message) (input : String)
    (hparse : ∀ tc ∈ issuedToolCalls llm t input, (jp tc.arguments).isSome) :
    ∀ tc ∈ issuedToolCalls llm t input,
      Message.tool tc.id tc.name (dispatchContent ct tc) ∈
        newMsgs (runTurn llm ct jp t input) t := by
  intro tc htc
  have hcalls : issuedToolCalls llm t input ≠ [] := by
    intro h
    rw [h] at htc
    exact absurd htc (List.not_mem_nil tc)
  obtain ⟨δ, hδ0, hrun⟩ := runTurn_spec llm ct jp t input hcalls hparse
  simp only at hrun
  have htr := congrArg TurnResult.transcript hrun
  simp only at htr
  have hmem : Message.tool tc.id tc.name (dispatchContent ct tc) ∈
      (issuedToolCalls llm t input).map
        (fun x => Message.tool x.id x.name (dispatchContent ct x)) :=
    List.mem_map_of_mem _ htc
  by_cases hd : ((issuedToolCalls llm t input).map
      (fun x => Message.tool x.id x.name (dispatchContent ct x))).any
        msgHasData = true
  · rw [if_pos hd] at htr
    simp only [List.append_assoc] at htr
    rw [newMsgs_eq _ _ _ htr]
    exact List.mem_append_right _ (List.mem_append_right _
      (List.mem_append_right _ (List.mem_append_left _ hmem)))
  · rw [if_neg hd] at htr
    simp only [List.append_assoc] at htr
    rw [newMsgs_eq _ _ _ htr]
    exact List.mem_append_right _ (List.mem_append_right _
      (List.mem_append_right _ (List.mem_append_left _ hmem)))

/-- C3 (amended): once a tool call's argument payload has parsed, any
failure of the dispatch to the tool provider (or of the result
extraction) is caught locally: the call's tool message carries the
error-sentinel text in its place, no exception escapes the turn, and
every call of the turn — including those after the failing one — still
receives its tool message. -/
theorem c3_dispatch_failures_caught
    (llm : List Message → Bool → AssistantMsg)
    (ct : String → String → Except String JValue)
    (jp : String → Option JValue)
    (t : List Message) (input : String)
    (hparse : ∀ tc ∈ issuedToolCalls llm t input, (jp tc.arguments).isSome) :
    (runTurn llm ct jp t input).crashed = false ∧
    (∀ tc ∈ issuedToolCalls llm t input,
      Message.tool tc.id tc.name (dispatchContent ct tc) ∈
        newMsgs (runTurn llm ct jp t input) t) ∧
    (∀ tc ∈ issuedToolCalls llm t input, ∀ e : String,
      ct tc.name tc.arguments = .error e → dispatchContent ct tc = mkErrorMsg e) := by
  refine ⟨?_, toolMsg_mem_newMsgs llm ct jp t input hparse, ?_⟩
  · by_cases hc : issuedToolCalls llm t input = []
    · unfold runTurn runToolPhase
      rw [if_pos (by simpa [issuedToolCalls] using hc)]
    · obtain ⟨δ, hδ0, hrun⟩ := runTurn_spec llm ct jp t input hc hparse
      simp only at hrun
      rw [hrun]
  · intro tc _ e he
    simp [dispatchContent, he]

/-- Witness for the amended C3 theorem at a concrete turn whose single
tool call's dispatch raises `HTTP 500`. -/
theorem c3_dispatch_failures_caught_witness :
    (∀ tc ∈ issuedToolCalls tcLLM [] "q3w", (jpOk tc.arguments).isSome) ∧
    ((runTurn tcLLM ctErr jpOk [] "q3w").crashed = false ∧
      (∀ tc ∈ issuedToolCalls tcLLM [] "q3w",
        Message.tool tc.id tc.name (dispatchContent ctErr tc) ∈
          newMsgs (runTurn tcLLM ctErr jpOk [] "q3w") []) ∧
      (∀ tc ∈ issuedToolCalls tcLLM [] "q3w", ∀ e : String,
        ctErr tc.name tc.arguments = .error e →
          dispatchContent ctErr tc = mkErrorMsg e)) :=
  ⟨by decide, c3_dispatch_failures_caught tcLLM ctErr jpOk [] "q3w" (by decide)⟩

/- ## Claim C4 -/

/-- A tool provider returning a bare list — a result shape the extraction
does not recognize. -/
def ctList : String → String → Except String JValue := fun _ _ =>
  .ok (.jarr [])

/-- C4 counterexample: a result of unrecognized shape (a bare list rather
than a mapping) makes the extraction raise, so the appended tool message
carries the error sentinel, not the no-data sentinel — refuting the claim
that every unrecognized shape yields the `[NO_DATA]` sentinel. -/
theorem c4_counterexample :
    rawExtract (.jarr []) = .error (attrErrorStr (.jarr []) "get") ∧
    (runTurn tcLLM ctList jpOk [] "q4").transcript =
      [Message.user "q4",
       Message.assistant none [⟨"call_2", "fetch_translation_notes", "args"⟩],
       Message.tool "call_2" "fetch_translation_notes"
         (mkErrorMsg (attrErrorStr (.jarr []) "get")),
       Message.system allFailedMsg,
       Message.assistant (some "done") []] ∧
    mkErrorMsg (attrErrorStr (.jarr []) "get") ≠ noDataMsg ∧
    containsSub (mkErrorMsg (attrErrorStr (.jarr []) "get")) "[NO_DATA]" = false :=
  ⟨rfl, rfl, by decide, by decide⟩

/-- C4 (amended): for every ToolResult value returned by a dispatch, a
tool message is appended, never omitted: when the extraction succeeds
and the extracted text is empty or whitespace-only (which covers every
mapping-shaped result whose parts are unrecognized and contribute
nothing), the message carries the no-data sentinel; when the result's
shape makes the extraction raise (a non-mapping result, or a truthy
non-string top-level `"text"` value), the message carries the error
sentinel instead. -/
theorem c4_empty_results_no_data
    (llm : List Message → Bool → AssistantMsg)
    (ct : String → String → Except String JValue)
    (jp : String → Option JValue)
    (t : List Message) (input : String)
    (hparse : ∀ tc ∈ issuedToolCalls llm t input, (jp tc.arguments).isSome) :
    ∀ tc ∈ issuedToolCalls llm t input, ∀ v : JValue,
      ct tc.name tc.arguments = .ok v →
      ((∀ s : String, rawExtract v = .ok s → (s = "" ∨ pyStrip s = "") →
          Message.tool tc.id tc.name noDataMsg ∈
            newMsgs (runTurn llm ct jp t input) t) ∧
       (∀ e : String, rawExtract v = .error e →
          Message.tool tc.id tc.name (mkErrorMsg e) ∈
            newMsgs (runTurn llm ct jp t input) t)) := by
  intro tc htc v hok
  constructor
  · intro s hraw hempty
    have hec : emptyCheck s = noDataMsg := by
      rcases hempty with h | h <;> simp [emptyCheck, h]
    have hdc : dispatchContent ct tc = noDataMsg := by
      simp [dispatchContent, hok, normalizeResult, hraw, Except.map, hec]
    have := toolMsg_mem_newMsgs llm ct jp t input hparse tc htc
    rwa [hdc] at this
  · intro e hraw
    have hdc : dispatchContent ct tc = mkErrorMsg e := by
      simp [dispatchContent, hok, normalizeResult, hraw, Except.map]
    have := toolMsg_mem_newMsgs llm ct jp t input hparse tc htc
    rwa [hdc] at this

/-- A tool provider returning a mapping whose content list is empty. -/
def ctEmpty : String → String → Except String JValue := fun _ _ =>
  .ok (.jobj [("content", .jarr [])])

/-- Witness for the amended C4 theorem at a concrete turn whose single
tool call returns an empty content list. -/
theorem c4_empty_results_no_data_witness :
    (∀ tc ∈ issuedToolCalls tcLLM [] "q4w", (jpOk tc.arguments).isSome) ∧
    (∀ tc ∈ issuedToolCalls tcLLM [] "q4w", ∀ v : JValue,
      ctEmpty tc.name tc.arguments = .ok v →
      ((∀ s : String, rawExtract v = .ok s → (s = "" ∨ pyStrip s = "") →
          Message.tool tc.id tc.name noDataMsg ∈
            newMsgs (runTurn tcLLM ctEmpty jpOk [] "q4w") []) ∧
       (∀ e : String, rawExtract v = .error e →
          Message.tool tc.id tc.name (mkErrorMsg e) ∈
            newMsgs (runTurn tcLLM ctEmpty jpOk [] "q4w") []))) :=
  ⟨by decide, c4_empty_results_no_data tcLLM ctEmpty jpOk [] "q4w" (by decide)⟩

/- ## Claim C5 -/

/-- An assistant that answers a Bible-related question from memory, twice
in a row, without tool calls. -/
def c5LLM : List Message → Bool → AssistantMsg := fun ms _ =>
  if ms.length ≤ 2 then ⟨some "From memory, John 3:16 says...", []⟩
  else ⟨some "second answer", []⟩

/-- C5 counterexample: the corrective system message is the last entry of
the transcript sent with the second completion request — so it was
present in the transcript at that point of the turn — yet it is absent
from the transcript after the turn: line 124 overwrote it in place with
the retried completion's assistant entry.  The transcript is therefore
not append-only within the turn. -/
theorem c5_counterexample :
    (runTurn c5LLM ctOk jpOk [] "john 3:16?").requests =
      [([Message.user "john 3:16?"], true),
       ([Message.user "john 3:16?",
         Message.assistant (some "From memory, John 3:16 says...") [],
         Message.system toolReminderMsg], true)] ∧
    (runTurn c5LLM ctOk jpOk [] "john 3:16?").transcript =
      [Message.user "john 3:16?",
       Message.assistant (some "From memory, John 3:16 says...") [],
       Message.assistant (some "second answer") []] ∧
    Message.system toolReminderMsg ∉
      (runTurn c5LLM ctOk jpOk [] "john 3:16?").transcript :=
  ⟨rfl, rfl, by decide⟩

/-- Observable shape of the tool phase: the transcript extends the
pre-tool transcript, and the request log is either unchanged or gains
exactly the final (tool-less) request, whose transcript the final
transcript extends. -/
theorem runToolPhase_obs (llm : List Message → Bool → AssistantMsg)
    (ct : String → String → Except String JValue)
    (jp : String → Option JValue) (p : Phase1Out) :
    (∃ rest, (runToolPhase llm ct jp p).transcript = p.msgs ++ rest) ∧
    ((runToolPhase llm ct jp p).requests = p.reqs ∨
     ∃ q : List Message,
       (runToolPhase llm ct jp p).requests = p.reqs ++ [(q, false)] ∧
       ∃ rest, (runToolPhase llm ct jp p).transcript = q ++ rest) := by
  unfold runToolPhase
  by_cases he : p.aCur.toolCalls.isEmpty = true
  · rw [if_pos he]
    exact ⟨⟨[], by simp⟩, Or.inl rfl⟩
  · rw [if_neg he]
    rcases hex : execToolCalls ct jp p.aCur.toolCalls with ⟨toolMsgs, crashed⟩
    cases crashed with
    | true => exact ⟨⟨toolMsgs, rfl⟩, Or.inl rfl⟩
    | false =>
      by_cases hd : (lastN (p.msgs ++ toolMsgs) p.aCur.toolCalls.length).any
          msgHasData = true
      · exact ⟨⟨toolMsgs ++
            [Message.assistant (llm (p.msgs ++ toolMsgs) false).content []],
            by simp [hd, List.append_assoc]⟩,
          Or.inr ⟨p.msgs ++ toolMsgs, by simp [hd],
            [Message.assistant (llm (p.msgs ++ toolMsgs) false).content []],
            by simp [hd]⟩⟩
      · rw [Bool.not_eq_true] at hd
        exact ⟨⟨toolMsgs ++ [Message.system allFailedMsg] ++
            [Message.assistant (llm (p.msgs ++ toolMsgs ++
              [Message.system allFailedMsg]) false).content []],
            by simp [hd, List.append_assoc]⟩,
          Or.inr ⟨p.msgs ++ toolMsgs ++ [Message.system allFailedMsg],
            by simp [hd],
            [Message.assistant (llm (p.msgs ++ toolMsgs ++
              [Message.system allFailedMsg]) false).content []],
            by simp [hd]⟩⟩

/-- Observable shape of the pre-tool phase: its transcript extends the
base transcript plus the user message, and every request's transcript,
less its final entry, is extended by the phase's transcript. -/
theorem phase1_obs (llm : List Message → Bool → AssistantMsg)
    (t : List Message) (input : String) :
    (∃ rest, (phase1 llm t input).msgs = (t ++ [Message.user input]) ++ rest) ∧
    (∀ p ∈ (phase1 llm t input).reqs,
      ∃ rest, (phase1 llm t input).msgs = p.1.dropLast ++ rest) := by
  simp only [phase1]
  set m1 := t ++ [Message.user input] with hm1
  set a1 := llm m1 true with ha1
  set m2 := m1 ++ [Message.assistant a1.content a1.toolCalls] with hm2
  set m3 := m2 ++ [Message.system toolReminderMsg] with hm3
  set a2 := llm m3 true with ha2
  by_cases h1 : (optTruthy a1.content && a1.toolCalls.isEmpty) = true
  · simp only [h1, if_true]
    by_cases h2 : isBibleRelated input = true
    · simp only [h2, if_true]
      have hA : ∃ rest,
          (setLast m3 (Message.assistant a2.content a2.toolCalls)) = m1 ++ rest :=
        ⟨[Message.assistant a1.content a1.toolCalls,
          Message.assistant a2.content a2.toolCalls],
          by simp [setLast, hm3, hm2, List.append_assoc]⟩
      have hB : ∀ p ∈ [(m1, true), (m3, true)], ∃ rest,
          (setLast m3 (Message.assistant a2.content a2.toolCalls)) =
            p.1.dropLast ++ rest := by
        intro p hp
        simp only [List.mem_cons, List.not_mem_nil, or_false,
          List.mem_singleton] at hp
        rcases hp with rfl | rfl
        · exact ⟨[Message.user input, Message.assistant a1.content a1.toolCalls,
            Message.assistant a2.content a2.toolCalls],
            by simp [setLast, hm3, hm2, hm1, List.append_assoc]⟩
        · exact ⟨[Message.assistant a2.content a2.toolCalls], rfl⟩
      by_cases h3 : a2.toolCalls.isEmpty = true
      · simp only [h3, if_true]
        exact ⟨hA, hB⟩
      · simp only [h3, if_false, Bool.false_eq_true]
        exact ⟨hA, hB⟩
    · simp only [h2, if_false, Bool.false_eq_true]
      refine ⟨⟨[Message.assistant a1.content a1.toolCalls], by rw [hm2]⟩, ?_⟩
      intro p hp
      simp only [List.mem_singleton] at hp
      subst hp
      exact ⟨[Message.user input, Message.assistant a1.content a1.toolCalls],
        by simp [hm2, hm1, List.append_assoc]⟩
  · simp only [h1, if_false, Bool.false_eq_true]
    refine ⟨⟨[Message.assistant a1.content a1.toolCalls], by rw [hm2]⟩, ?_⟩
    intro p hp
    simp only [List.mem_singleton] at hp
    subst hp
    exact ⟨[Message.user input, Message.assistant a1.content a1.toolCalls],
      by simp [hm2, hm1, List.append_assoc]⟩

/-- C5 (amended): within a turn the transcript behaves append-only except
for one step: during the corrective retry the just-injected corrective
system message — the last entry of the retry request's transcript — is
overwritten in place by the second completion's assistant entry
(line 124).  Consequently the base transcript plus the user message is
always preserved as a prefix, and every completion request's transcript,
less its final entry, is preserved as a prefix of the turn's final
transcript. -/
theorem c5_transcript_append_only_except_overwrite
    (llm : List Message → Bool → AssistantMsg)
    (ct : String → String → Except String JValue)
    (jp : String → Option JValue)
    (t : List Message) (input : String) :
    (∃ rest, (runTurn llm ct jp t input).transcript =
      (t ++ [Message.user input]) ++ rest) ∧
    (∀ p ∈ (runTurn llm ct jp t input).requests,
      ∃ rest, (runTurn llm ct jp t input).transcript = p.1.dropLast ++ rest) := by
  obtain ⟨⟨restT, hrestT⟩, hreq⟩ := runToolPhase_obs llm ct jp (phase1 llm t input)
  obtain ⟨⟨rest1, hrest1⟩, hreq1⟩ := phase1_obs llm t input
  have hruneq : runTurn llm ct jp t input =
      runToolPhase llm ct jp (phase1 llm t input) := rfl
  constructor
  · exact ⟨rest1 ++ restT, by rw [hruneq, hrestT, hrest1, List.append_assoc]⟩
  · intro p hp
    rw [hruneq] at hp ⊢
    rcases hreq with hsame | ⟨q, hq, rest2, hrest2⟩
    · rw [hsame] at hp
      obtain ⟨rest3, hrest3⟩ := hreq1 p hp
      exact ⟨rest3 ++ restT, by rw [hrestT, hrest3, List.append_assoc]⟩
    · rw [hq] at hp
      rcases List.mem_append.mp hp with hp1 | hp2
      · obtain ⟨rest3, hrest3⟩ := hreq1 p hp1
        exact ⟨rest3 ++ restT, by rw [hrestT, hrest3, List.append_assoc]⟩
      · simp only [List.mem_singleton] at hp2
        subst hp2
        obtain ⟨rtl, hrtl⟩ := List.dropLast_prefix q
        refine ⟨rtl ++ rest2, ?_⟩
        rw [hrest2]
        conv_lhs => rw [← hrtl]
        rw [List.append_assoc]

/- ## Claim C6 -/

/-- An assistant whose completion carries neither text nor tool calls. -/
def c6LLM : List Message → Bool → AssistantMsg := fun _ _ => ⟨none, []⟩

/-- C6 counterexample: the input `"bible"` matches the keyword heuristic
and the first completion carries no tool calls, yet — because its text is
also empty — no corrective system message is injected and no re-request
is made: the turn issues exactly one completion request and prints
nothing.  This refutes the claim, which requires only a keyword match and
the absence of tool calls. -/
theorem c6_counterexample :
    isBibleRelated "bible" = true ∧
    (c6LLM [Message.user "bible"] true).toolCalls = [] ∧
    (runTurn c6LLM ctOk jpOk [] "bible").requests =
      [([Message.user "bible"], true)] ∧
    (runTurn c6LLM ctOk jpOk [] "bible").transcript =
      [Message.user "bible", Message.assistant none []] ∧
    (runTurn c6LLM ctOk jpOk [] "bible").printed = [] :=
  ⟨rfl, rfl, rfl, rfl, rfl⟩

/-- The first completion of a turn (line 73). -/
def firstMsg (llm : List Message → Bool → AssistantMsg)
    (t : List Message) (input : String) : AssistantMsg :=
  llm (t ++ [Message.user input]) true

/-- The transcript sent with the corrective re-request (lines 110-121):
user message, first assistant entry, injected corrective system
message. -/
def retryTranscript (llm : List Message → Bool → AssistantMsg)
    (t : List Message) (input : String) : List Message :=
  t ++ [Message.user input] ++
    [Message.assistant (firstMsg llm t input).content
      (firstMsg llm t input).toolCalls] ++
    [Message.system toolReminderMsg]

/-- The completion returned by the corrective re-request (line 116). -/
def retryMsg (llm : List Message → Bool → AssistantMsg)
    (t : List Message) (input : String) : AssistantMsg :=
  llm (retryTranscript llm t input) true

/-- C6 (amended): for every turn whose first completion carries
*non-empty text* and no tool calls, and whose input matches the
Bible-keyword heuristic, exactly one corrective system message is
injected and exactly one re-request is made (the turn's first two
requests are the original and the corrective one); there is no further
retry: if the second completion also yields no tool calls, the turn ends
with exactly those two requests and the second completion's text is
surfaced as-is as the turn's output. -/
theorem c6_retry_once (llm : List Message → Bool → AssistantMsg)
    (ct : String → String → Except String JValue)
    (jp : String → Option JValue)
    (t : List Message) (input : String)
    (h1 : optTruthy (firstMsg llm t input).content = true)
    (h2 : (firstMsg llm t input).toolCalls = [])
    (h3 : isBibleRelated input = true) :
    (runTurn llm ct jp t input).requests.take 2 =
      [(t ++ [Message.user input], true), (retryTranscript llm t input, true)] ∧
    ((retryMsg llm t input).toolCalls = [] →
      runTurn llm ct jp t input =
        ⟨t ++ [Message.user input] ++
           [Message.assistant (firstMsg llm t input).content
             (firstMsg llm t input).toolCalls] ++
           [Message.assistant (retryMsg llm t input).content []],
         [(t ++ [Message.user input], true), (retryTranscript llm t input, true)],
         [(retryMsg llm t input).content], false⟩) := by
  have hcond1 : (optTruthy (llm (t ++ [Message.user input]) true).content &&
      (llm (t ++ [Message.user input]) true).toolCalls.isEmpty) = true := by
    have h1' := h1
    have h2' := h2
    simp only [firstMsg] at h1' h2'
    simp [h1', h2']
  have hph : phase1 llm t input =
      ⟨setLast (retryTranscript llm t input)
         (Message.assistant (retryMsg llm t input).content
           (retryMsg llm t input).toolCalls),
       retryMsg llm t input,
       [(t ++ [Message.user input], true), (retryTranscript llm t input, true)],
       if (retryMsg llm t input).toolCalls.isEmpty then
         [(retryMsg llm t input).content] else []⟩ := by
    simp only [phase1, hcond1, if_true, h3]
    simp only [retryMsg, retryTranscript, firstMsg]
    split <;> simp_all
  constructor
  · obtain ⟨_, hreqs⟩ := runToolPhase_obs llm ct jp (phase1 llm t input)
    have hrr : runTurn llm ct jp t input =
        runToolPhase llm ct jp (phase1 llm t input) := rfl
    rcases hreqs with hsame | ⟨q, hq, _⟩
    · rw [hrr, hsame, hph]
      rfl
    · rw [hrr, hq, hph]
      rfl
  · intro ha2
    have hrun : runTurn llm ct jp t input =
        ⟨(phase1 llm t input).msgs, (phase1 llm t input).reqs,
          (phase1 llm t input).printed, false⟩ := by
      unfold runTurn runToolPhase
      rw [if_pos (by rw [hph]; simpa using ha2)]
    rw [hrun, hph]
    simp [setLast, retryTranscript, ha2, List.append_assoc]

/-- An assistant that answers a Bible question from memory and, after the
corrective reminder, apologizes — never calling a tool. -/
def c6wLLM : List Message → Bool → AssistantMsg := fun ms _ =>
  if ms.length ≤ 1 then ⟨some "From memory, it says...", []⟩
  else ⟨some "I cannot verify that", []⟩

/-- Witness for the amended C6 theorem at a concrete turn: non-empty
first answer, no tool calls, Bible-related input, and a second completion
that again carries no tool calls. -/
theorem c6_retry_once_witness :
    (optTruthy (firstMsg c6wLLM [] "psalm 23").content = true ∧
     (firstMsg c6wLLM [] "psalm 23").toolCalls = [] ∧
     isBibleRelated "psalm 23" = true) ∧
    ((runTurn c6wLLM ctOk jpOk [] "psalm 23").requests.take 2 =
      [([] ++ [Message.user "psalm 23"], true),
       (retryTranscript c6wLLM [] "psalm 23", true)] ∧
     ((retryMsg c6wLLM [] "psalm 23").toolCalls = [] →
       runTurn c6wLLM ctOk jpOk [] "psalm 23" =
         ⟨[] ++ [Message.user "psalm 23"] ++
            [Message.assistant (firstMsg c6wLLM [] "psalm 23").content
              (firstMsg c6wLLM [] "psalm 23").toolCalls] ++
            [Message.assistant (retryMsg c6wLLM [] "psalm 23").content []],
          [([] ++ [Message.user "psalm 23"], true),
           (retryTranscript c6wLLM [] "psalm 23", true)],
          [(retryMsg c6wLLM [] "psalm 23").content], false⟩)) :=
  ⟨⟨by decide, by decide, by decide⟩,
    c6_retry_once c6wLLM ctOk jpOk [] "psalm 23" (by decide) (by decide)
      (by decide)⟩

/- ## Claim C7 -/

/-- C7: in every turn that executes tool calls to completion (all
argument payloads parsing), the final completion request is made with no
tools attached, the text of the completion returned for it is printed as
the turn's output, and the corresponding assistant entry — carrying no
tool calls — is appended as the last transcript entry. -/
theorem c7_final_completion_without_tools
    (llm : List Message → Bool → AssistantMsg)
    (ct : String → String → Except String JValue)
    (jp : String → Option JValue)
    (t : List Message) (input : String)
    (hparse : ∀ tc ∈ issuedToolCalls llm t input, (jp tc.arguments).isSome)
    (hcalls : issuedToolCalls llm t input ≠ []) :
    ∃ m6 : List Message,
      (runTurn llm ct jp t input).requests.getLast? = some (m6, false) ∧
      (runTurn llm ct jp t input).printed.getLast? =
        some (llm m6 false).content ∧
      (runTurn llm ct jp t input).transcript.getLast? =
        some (Message.assistant (llm m6 false).content []) := by
  obtain ⟨δ, hδ0, hrun⟩ := runTurn_spec llm ct jp t input hcalls hparse
  simp only at hrun
  rw [hrun]
  by_cases hd : ((issuedToolCalls llm t input).map
      (fun tc => Message.tool tc.id tc.name (dispatchContent ct tc))).any
        msgHasData = true
  · rw [if_pos hd]
    exact ⟨_, List.getLast?_concat _, List.getLast?_concat _,
      List.getLast?_concat _⟩
  · rw [if_neg hd]
    exact ⟨_, List.getLast?_concat _, List.getLast?_concat _,
      List.getLast?_concat _⟩

/-- Witness for C7 at a concrete turn with one parseable tool call. -/
theorem c7_final_completion_without_tools_witness :
    ((∀ tc ∈ issuedToolCalls tcLLM [] "q7", (jpOk tc.arguments).isSome) ∧
     issuedToolCalls tcLLM [] "q7" ≠ []) ∧
    (∃ m6 : List Message,
      (runTurn tcLLM ctOk jpOk [] "q7").requests.getLast? = some (m6, false) ∧
      (runTurn tcLLM ctOk jpOk [] "q7").printed.getLast? =
        some (tcLLM m6 false).content ∧
      (runTurn tcLLM ctOk jpOk [] "q7").transcript.getLast? =
        some (Message.assistant (tcLLM m6 false).content [])) :=
  ⟨⟨by decide, by decide⟩,
    c7_final_completion_without_tools tcLLM ctOk jpOk [] "q7" (by decide)
      (by decide)⟩

/- ## Claim C8 -/

/-- An assistant issuing three tool calls, the second with an
unparseable argument payload. -/
def c8LLM : List Message → Bool → AssistantMsg := fun ms _ =>
  if ms.length ≤ 1 then
    ⟨none, [⟨"c8a", "fetch_scripture", "good"⟩,
      ⟨"c8b", "fetch_scripture", "bad"⟩,
      ⟨"c8c", "fetch_scripture", "good"⟩]⟩
  else ⟨some "end", []⟩

/-- C8: a concrete turn in which the assistant issues three tool calls
and the second one's argument payload is not valid JSON.  The parse
failure escapes the per-call handler: only the first call gets a tool
message, neither the failing call nor the later third call receives any
tool message (error sentinel included), no further completion request is
issued, the session-level handler reports the error, the tool-provider
connection is closed, and the session ends. -/
theorem c8_parse_failure_escapes :
    (runTurn c8LLM ctOk jpSel [] "q8").transcript =
      [Message.user "q8",
       Message.assistant none
         [⟨"c8a", "fetch_scripture", "good"⟩, ⟨"c8b", "fetch_scripture", "bad"⟩,
          ⟨"c8c", "fetch_scripture", "good"⟩],
       Message.tool "c8a" "fetch_scripture" "For God so loved the world..."] ∧
    (runTurn c8LLM ctOk jpSel [] "q8").requests =
      [([Message.user "q8"], true)] ∧
    (runTurn c8LLM ctOk jpSel [] "q8").crashed = true ∧
    sessionWindup (runTurn c8LLM ctOk jpSel [] "q8") = ⟨true, true⟩ ∧
    sessionContinues (runTurn c8LLM ctOk jpSel [] "q8") = false :=
  ⟨rfl, rfl, rfl, rfl, rfl⟩

/- ## Claim C9 -/

/-- The text payload of a tool message, `""` for the other variants. -/
def toolContentOf : Message → String
  | .tool _ _ c => c
  | _ => ""

/-- C9: a tool message counts as carrying data exactly when its content
is non-empty, not whitespace-only, and contains neither `"[NO_DATA]"`
nor `"[ERROR]"` as a substring; consequently, in a turn all of whose
tool messages contain one of those substrings — even inside genuine
returned data — the corrective all-failed system message is injected
before the final completion request. -/
theorem c9_substring_data_test
    (llm : List Message → Bool → AssistantMsg)
    (ct : String → String → Except String JValue)
    (jp : String → Option JValue)
    (t : List Message) (input : String)
    (hparse : ∀ tc ∈ issuedToolCalls llm t input, (jp tc.arguments).isSome)
    (hcalls : issuedToolCalls llm t input ≠ [])
    (hsent : ∀ m ∈ newMsgs (runTurn llm ct jp t input) t,
      (toolIdOf m).isSome = true →
        containsSub (toolContentOf m) "[NO_DATA]" = true ∨
        containsSub (toolContentOf m) "[ERROR]" = true) :
    (∀ id nm c, msgHasData (Message.tool id nm c) = true ↔
      (¬c = "" ∧ ¬pyStrip c = "" ∧ containsSub c "[NO_DATA]" = false ∧
        containsSub c "[ERROR]" = false)) ∧
    ∃ m6 : List Message,
      (runTurn llm ct jp t input).requests.getLast? = some (m6, false) ∧
      m6.getLast? = some (Message.system allFailedMsg) := by
  obtain ⟨δ, hδ0, hrun⟩ := runTurn_spec llm ct jp t input hcalls hparse
  simp only at hrun
  refine ⟨?_, ?_⟩
  · intro id nm c
    simp [msgHasData, and_assoc]
  · by_cases hd : ((issuedToolCalls llm t input).map
        (fun tc => Message.tool tc.id tc.name (dispatchContent ct tc))).any
          msgHasData = true
    · exfalso
      obtain ⟨m, hm, hdata⟩ := List.any_eq_true.mp hd
      obtain ⟨tc, htc, rfl⟩ := List.mem_map.mp hm
      have hmem := toolMsg_mem_newMsgs llm ct jp t input hparse tc htc
      have hsub := hsent _ hmem (by simp [toolIdOf])
      simp only [toolContentOf] at hsub
      simp only [msgHasData, Bool.and_eq_true, bne_iff_ne, ne_eq,
        Bool.not_eq_true'] at hdata
      rcases hsub with h | h <;> simp [h] at hdata
    · rw [hrun, if_neg hd]
      exact ⟨_, List.getLast?_concat _, List.getLast?_concat _⟩

/-- A genuine tool-result text mentioning the error marker inside real
data. -/
def c9Genuine : String :=
  "The note explains that [ERROR] markers in older runs denote damaged manuscript sources"

/-- A tool provider returning the genuine marker-mentioning text. -/
def c9CT : String → String → Except String JValue := fun _ _ =>
  .ok (.jobj [("content", .jarr [.jobj [("text", .jstr c9Genuine)]])])

/-- Witness for C9 at a concrete turn whose single tool message is
genuine data that happens to contain `"[ERROR]"`, so the corrective
message is injected although real data was returned. -/
theorem c9_substring_data_test_witness :
    ((∀ tc ∈ issuedToolCalls tcLLM [] "q9", (jpOk tc.arguments).isSome) ∧
     issuedToolCalls tcLLM [] "q9" ≠ [] ∧
     (∀ m ∈ newMsgs (runTurn tcLLM c9CT jpOk [] "q9") [],
       (toolIdOf m).isSome = true →
         containsSub (toolContentOf m) "[NO_DATA]" = true ∨
         containsSub (toolContentOf m) "[ERROR]" = true)) ∧
    ((∀ id nm c, msgHasData (Message.tool id nm c) = true ↔
       (¬c = "" ∧ ¬pyStrip c = "" ∧ containsSub c "[NO_DATA]" = false ∧
         containsSub c "[ERROR]" = false)) ∧
     ∃ m6 : List Message,
       (runTurn tcLLM c9CT jpOk [] "q9").requests.getLast? = some (m6, false) ∧
       m6.getLast? = some (Message.system allFailedMsg)) :=
  ⟨⟨by decide, by decide, by decide⟩,
    c9_substring_data_test tcLLM c9CT jpOk [] "q9" (by decide) (by decide)
      (by decide)⟩

/- ## Claim C10 -/

/-- C10: for every turn whose first completion returns empty or absent
text and no tool calls, the turn ends silently: the assistant entry is
still appended to the transcript, nothing is printed, and no corrective
re-prompt, tool dispatch or further completion request occurs — whatever
the user input (in particular even when it matches the Bible-keyword
heuristic). -/
theorem c10_empty_completion_silent
    (llm : List Message → Bool → AssistantMsg)
    (ct : String → String → Except String JValue)
    (jp : String → Option JValue)
    (t : List Message) (input : String)
    (h1 : optTruthy (firstMsg llm t input).content = false)
    (h2 : (firstMsg llm t input).toolCalls = []) :
    runTurn llm ct jp t input =
      ⟨t ++ [Message.user input,
         Message.assistant (firstMsg llm t input).content []],
       [(t ++ [Message.user input], true)], [], false⟩ := by
  have h1' : optTruthy (llm (t ++ [Message.user input]) true).content = false := h1
  have h2' : (llm (t ++ [Message.user input]) true).toolCalls = [] := h2
  have hph : phase1 llm t input =
      ⟨t ++ [Message.user input,
         Message.assistant (firstMsg llm t input).content []],
       firstMsg llm t input, [(t ++ [Message.user input], true)], []⟩ := by
    simp [phase1, h1', h2', firstMsg]
  unfold runTurn runToolPhase
  rw [hph]
  rw [if_pos (by simp [firstMsg, h2'])]

/-- Witness for C10: an empty completion on the Bible-related input
`"bible"` ends the turn silently. -/
theorem c10_empty_completion_silent_witness :
    (optTruthy (firstMsg c6LLM [] "bible").content = false ∧
     (firstMsg c6LLM [] "bible").toolCalls = []) ∧
    runTurn c6LLM ctErr jpOk [] "bible" =
      ⟨[] ++ [Message.user "bible",
         Message.assistant (firstMsg c6LLM [] "bible").content []],
       [([] ++ [Message.user "bible"], true)], [], false⟩ :=
  ⟨⟨by decide, by decide⟩,
    c10_empty_completion_silent c6LLM ctErr jpOk [] "bible" (by decide)
      (by decide)⟩
